import Mathlib

/-!
Shallow embedding of the triplanai-marketing ranking-and-workflow engine.

Sources embedded here:
* `src/lib/keywords.ts` (keyword list, question patterns, ranking weights,
  platform rate limits),
* `src/services/ranking.ts` (scoring, `rankPosts`, `filterForReply`),
* `src/services/rate-limiter.ts` (rate window, processed markers, pending
  replies, daily counts),
* the webhook / scan handlers (`handleTelegramWebhook`, `handleApprove`,
  `handleDecline`, `handleMarkDone`, `scanPlatform`) and
  `decodeCallbackData` from `src/services/telegram.ts`.

Modelling conventions:
* JavaScript numbers used for scores and weights become `ℝ`; epoch-millisecond
  timestamps become `ℤ`; raw engagement metrics become `ℕ`.
* The SQLite tables become total functions from their primary key to an
  optional row; `INSERT OR REPLACE` becomes a pointwise function update.
* `Date.now()` becomes an explicit `now : ℤ` argument; the UTC calendar-day
  string `new Date().toISOString().split('T')[0]` becomes an explicit
  `today : String` argument (derived from the same clock by the runtime).
* External collaborators (platform posting, Telegram delivery, scanners) are
  passed in as function arguments; a scanner that throws is modelled as
  `Except.error`.
-/

namespace Triplanai

/-! ## Platforms (`SocialPlatform` in `src/lib/types.ts`) -/

inductive SocialPlatform
  | reddit
  | twitter
  | instagram
deriving DecidableEq

/-- String name of a platform, as it appears in keys such as
`platform:YYYY-MM-DD` (in TS the platform value is itself this string). -/
def platformName : SocialPlatform → String
  | .reddit => "reddit"
  | .twitter => "twitter"
  | .instagram => "instagram"

/-! ## A small regular-expression engine

The source uses JavaScript regex literals (`QUESTION_PATTERNS`). We embed the
constructs those literals actually use — case-insensitive literals (`/i`),
`\s+`, alternation groups, and the end anchor `$` — as a derivative-based
matcher. -/

/-- Character classes used by the embedded patterns: a case-insensitive
single character, JavaScript `\s`, and `.`-like "any character" (used only to
implement unanchored search). -/
inductive CharCls
  | ci (c : Char)
  | ws
  | any
deriving DecidableEq

/-- JavaScript `\s` (the whitespace characters that can occur in post text). -/
def isWsChar (c : Char) : Bool :=
  c = ' ' || c = '\t' || c = '\n' || c = '\r' ||
    c.val = 11 || c.val = 12 || c.val = 160

def CharCls.matchesChar : CharCls → Char → Bool
  | .ci c, d => d.toLower = c.toLower
  | .ws, d => isWsChar d
  | .any, _ => true

inductive RE
  | emp
  | eps
  | cls (c : CharCls)
  | cat (a b : RE)
  | alt (a b : RE)
  | star (a : RE)

def RE.nullable : RE → Bool
  | .emp => false
  | .eps => true
  | .cls _ => false
  | .cat a b => a.nullable && b.nullable
  | .alt a b => a.nullable || b.nullable
  | .star _ => true

def RE.deriv : RE → Char → RE
  | .emp, _ => .emp
  | .eps, _ => .emp
  | .cls k, c => if k.matchesChar c then .eps else .emp
  | .cat a b, c =>
      if a.nullable then .alt (.cat (a.deriv c) b) (b.deriv c)
      else .cat (a.deriv c) b
  | .alt a b, c => .alt (a.deriv c) (b.deriv c)
  | .star a, c => .cat (a.deriv c) (.star a)

def RE.matchList : RE → List Char → Bool
  | r, [] => r.nullable
  | r, c :: cs => (r.deriv c).matchList cs

/-- Case-insensitive literal (each pattern below carries the `/i` flag;
the characters involved are ASCII, where `/i` is `toLower` equality). -/
def litCI (s : String) : RE :=
  s.data.foldr (fun c r => RE.cat (RE.cls (.ci c)) r) RE.eps

/-- `\s+` -/
def wsPlus : RE := RE.cat (RE.cls .ws) (RE.star (RE.cls .ws))

/-- An alternation group `(a|b|…)` of literals. -/
def reGroup (ss : List String) : RE :=
  ss.foldr (fun s r => RE.alt (litCI s) r) RE.emp

def reSeq (l : List RE) : RE := l.foldr RE.cat RE.eps

def anyStar : RE := RE.star (RE.cls .any)

/-- A JavaScript regex as used by the source: a bare pattern, possibly
anchored at the end of the string with `$`. -/
structure JsRegex where
  re : RE
  anchorEnd : Bool

/-- `regex.test(s)`: the pattern matches some substring of `s`
(ending at the end of `s` when `$`-anchored). -/
def JsRegex.test (p : JsRegex) (s : String) : Bool :=
  RE.matchList
    (RE.cat anyStar (if p.anchorEnd then p.re else RE.cat p.re anyStar))
    s.data

/-! ## `src/lib/keywords.ts` -/

/-- `TRIATHLON_KEYWORDS` from `src/lib/keywords.ts`. -/
def TRIATHLON_KEYWORDS : List String :=
  [ "triathlon", "ironman", "70.3", "half ironman", "olympic distance",
    "sprint triathlon", "super sprint", "duathlon", "aquathlon",
    "swim bike run", "open water swimming", "brick workout", "brick session",
    "transition", "T1", "T2",
    "triathlon training", "tri training", "endurance training", "FTP",
    "threshold", "zone 2", "base training", "build phase", "taper",
    "race week",
    "tri suit", "trisuit", "wetsuit", "aero helmet", "TT bike", "tri bike",
    "triathlon bike", "clip-on aero bars", "race belt", "elastic laces",
    "kona", "IM world championship", "challenge roth", "nice triathlon",
    "challenge family",
    "first triathlon", "beginner triathlon", "triathlon plan",
    "training plan", "race nutrition", "race day" ]

/-- `QUESTION_PATTERNS` from `src/lib/keywords.ts`, in source order. -/
def QUESTION_PATTERNS : List JsRegex :=
  [ ⟨litCI "?", true⟩,
    ⟨reSeq [litCI "how", wsPlus, reGroup ["do", "can", "should", "would"]], false⟩,
    ⟨reSeq [litCI "what", wsPlus, reGroup ["is", "are", "should", "would", "do"]], false⟩,
    ⟨reSeq [litCI "any", wsPlus, reGroup ["tips", "advice", "suggestions", "help"]], false⟩,
    ⟨reSeq [litCI "looking", wsPlus, litCI "for", wsPlus, reGroup ["help", "advice", "tips"]], false⟩,
    ⟨litCI "recommend", false⟩,
    ⟨litCI "beginner", false⟩,
    ⟨reSeq [litCI "first", wsPlus, reGroup ["triathlon", "race", "ironman", "70.3"]], false⟩,
    ⟨reSeq [litCI "struggling", wsPlus, litCI "with"], false⟩,
    ⟨reSeq [litCI "need", wsPlus, litCI "help"], false⟩,
    ⟨reSeq [litCI "thoughts", wsPlus, litCI "on"], false⟩,
    ⟨reSeq [litCI "anyone", wsPlus, reGroup ["else", "here", "know"]], false⟩ ]

/-- `RankingWeights` from `src/lib/types.ts`. -/
structure RankingWeights where
  keyword : ℝ
  engagement : ℝ
  recency : ℝ
  question : ℝ

/-- `RANKING_WEIGHTS` from `src/lib/keywords.ts`. -/
noncomputable def RANKING_WEIGHTS : SocialPlatform → RankingWeights
  | .twitter => ⟨0.25, 0.25, 0.40, 0.10⟩
  | .reddit => ⟨0.35, 0.30, 0.20, 0.15⟩
  | .instagram => ⟨0.35, 0.30, 0.20, 0.15⟩

/-- One entry of `PLATFORM_RATE_LIMITS`. -/
structure RateLimitSpec where
  requestsPerWindow : ℤ
  windowSeconds : ℤ

/-- `PLATFORM_RATE_LIMITS` from `src/lib/keywords.ts`. -/
def PLATFORM_RATE_LIMITS : SocialPlatform → RateLimitSpec
  | .reddit => ⟨60, 60⟩
  | .twitter => ⟨15, 900⟩
  | .instagram => ⟨200, 3600⟩

/-! ## Posts (`SocialPost` in `src/lib/types.ts`) -/

structure SocialPost where
  id : String
  platform : SocialPlatform
  externalId : String
  url : String
  authorUsername : String
  content : String
  title : Option String
  engagementScore : ℕ
  /-- `createdAt.getTime()`, epoch milliseconds. -/
  createdAt : ℤ
  /-- `scannedAt.getTime()`, epoch milliseconds. -/
  scannedAt : ℤ
  relevanceScore : ℤ
deriving DecidableEq

/-! ## `src/services/ranking.ts` -/

/-- Lowercasing a string (`toLowerCase()`; the keyword list is ASCII). -/
def strLower (s : String) : String := ⟨s.data.map Char.toLower⟩

/-- Does `needle` occur as a prefix of `hay`? -/
def matchesPfx : List Char → List Char → Bool
  | [], _ => true
  | _ :: _, [] => false
  | a :: as_, b :: bs => a = b && matchesPfx as_ bs

/-- `hay.includes(needle)` on the underlying character lists. -/
def containsSeg (needle : List Char) : List Char → Bool
  | [] => matchesPfx needle []
  | b :: bs => matchesPfx needle (b :: bs) || containsSeg needle bs

/-- `text.includes(sub)` for strings. -/
def strIncludes (hay sub : String) : Bool := containsSeg sub.data hay.data

/-- Splitting a character list at every occurrence of `sep`
(JavaScript `String.prototype.split` with a single-character separator). -/
def splitChar (sep : Char) : List Char → List (List Char)
  | [] => [[]]
  | c :: cs =>
      let r := splitChar sep cs
      if c = sep then [] :: r
      else
        match r with
        | [] => [[c]]
        | g :: gs => (c :: g) :: gs

/-- `s.split(sep)` for a one-character separator. -/
def strSplit (s : String) (sep : Char) : List String :=
  (splitChar sep s.data).map (fun l => ⟨l⟩)

/-- `parts.join(sep)`. -/
def joinSep (sep : String) : List String → String
  | [] => ""
  | [x] => x
  | x :: xs => x ++ sep ++ joinSep sep xs

/-- `(post.title || '') + ' ' + post.content`. -/
def postText (post : SocialPost) : String :=
  (post.title.getD "") ++ " " ++ post.content

/-- `calculateKeywordScore` (`src/services/ranking.ts`). -/
noncomputable def calculateKeywordScore (post : SocialPost) : ℝ :=
  let text := strLower (postText post)
  let nMatches : ℕ :=
    (TRIATHLON_KEYWORDS.filter (fun kw => strIncludes text (strLower kw))).length
  let baseScore : ℝ := min (nMatches : ℝ) 5 / 5 * 100
  let bonusMultiplier : ℝ := 1 + min ((nMatches : ℝ) * 0.05) 0.25
  min 100 (baseScore * bonusMultiplier)

/-- `calculateEngagementScore` (`src/services/ranking.ts`). -/
noncomputable def calculateEngagementScore (post : SocialPost)
    (maxEngagement : ℕ) : ℝ :=
  if maxEngagement = 0 then 50
  else
    let logScore := Real.logb 10 ((post.engagementScore : ℝ) + 1)
    let logMax := Real.logb 10 ((maxEngagement : ℝ) + 1)
    logScore / logMax * 100

/-- `calculateRecencyScore` (`src/services/ranking.ts`); `now` is
`Date.now()`. -/
noncomputable def calculateRecencyScore (now : ℤ) (post : SocialPost) : ℝ :=
  let ageMs : ℝ := ((now - post.createdAt : ℤ) : ℝ)
  if post.platform = .twitter then
    let ageMinutes := ageMs / (1000 * 60)
    if ageMinutes < 30 then 100
    else if ageMinutes > 240 then 10
    else max 10 (100 * Real.exp (-ageMinutes / 120))
  else
    let ageHours := ageMs / (1000 * 60 * 60)
    if ageHours < 1 then 100
    else if ageHours > 48 then 10
    else max 10 (100 * Real.exp (-ageHours / 12))

/-- Number of question patterns matching the post's text. -/
def questionMatches (post : SocialPost) : ℕ :=
  (QUESTION_PATTERNS.filter (fun pat => pat.test (postText post))).length

/-- `calculateQuestionScore` (`src/services/ranking.ts`). -/
noncomputable def calculateQuestionScore (post : SocialPost) : ℝ :=
  min 100 (min (questionMatches post : ℝ) 3 / 3 * 100)

/-- `Math.round`, as it behaves on the scores involved: round half up. -/
noncomputable def jsRound (x : ℝ) : ℤ := ⌊x + 1 / 2⌋

/-- `calculateRelevanceScore` (`src/services/ranking.ts`). -/
noncomputable def calculateRelevanceScore (now : ℤ) (post : SocialPost)
    (maxEngagement : ℕ) : ℤ :=
  let weights := RANKING_WEIGHTS post.platform
  let keywordScore := calculateKeywordScore post
  let engagementScore := calculateEngagementScore post maxEngagement
  let recencyScore := calculateRecencyScore now post
  let questionScore := calculateQuestionScore post
  let totalScore :=
    keywordScore * weights.keyword +
    engagementScore * weights.engagement +
    recencyScore * weights.recency +
    questionScore * weights.question
  jsRound totalScore

/-- `Math.max(...posts.map(p => p.engagementScore))` (used on non-empty
batches; engagement metrics are non-negative integers). -/
def maxEngagementOf (posts : List SocialPost) : ℕ :=
  posts.foldl (fun m p => max m p.engagementScore) 0

/-- The scoring pass of `rankPosts`: write `relevanceScore` into every post. -/
noncomputable def scoreAll (now : ℤ) (posts : List SocialPost) :
    List SocialPost :=
  let maxEngagement := maxEngagementOf posts
  posts.map (fun p =>
    { p with relevanceScore := calculateRelevanceScore now p maxEngagement })

/-- Stable insertion into a list sorted by descending `relevanceScore`
(the element being inserted comes from earlier in the input than the ones
already placed, so it goes before score ties). -/
def insertDesc (p : SocialPost) : List SocialPost → List SocialPost
  | [] => [p]
  | q :: qs =>
      if q.relevanceScore ≤ p.relevanceScore then p :: q :: qs
      else q :: insertDesc p qs

/-- `posts.sort((a, b) => b.relevanceScore - a.relevanceScore)`: a stable
descending sort by `relevanceScore`. -/
def sortByScoreDesc : List SocialPost → List SocialPost
  | [] => []
  | p :: ps => insertDesc p (sortByScoreDesc ps)

/-- `rankPosts` (`src/services/ranking.ts`). The function mutates its
argument (scores every element, then sorts the array in place) and returns a
prefix of the mutated array; we model the effect by returning both the final
state of the caller's array (first component) and the returned value (second
component). -/
noncomputable def rankPosts (now : ℤ) (posts : List SocialPost)
    (limit : ℕ) : List SocialPost × List SocialPost :=
  if posts.isEmpty then (posts, [])
  else
    let sorted := sortByScoreDesc (scoreAll now posts)
    (sorted, sorted.take limit)

/-- The question test of `filterForReply`:
`QUESTION_PATTERNS.some((pattern) => pattern.test(text))`. -/
def isQuestionText (post : SocialPost) : Bool :=
  QUESTION_PATTERNS.any (fun pat => pat.test (postText post))

/-- `filterForReply` (`src/services/ranking.ts`). -/
def filterForReply (posts : List SocialPost) (minRelevance : ℤ) :
    List SocialPost :=
  posts.filter (fun post =>
    if post.relevanceScore < minRelevance then false
    else isQuestionText post)

/-! ## The persistent store (`src/lib/db.ts` tables used by
`src/services/rate-limiter.ts`) -/

/-- One row of the `rate_limits` table. -/
structure RateRow where
  last_request_at : ℤ
  request_count : ℤ
  expires_at : ℤ
deriving DecidableEq

/-- One row of the `processed_posts` table (`processed_at`, `expires_at`). -/
structure ProcessedRow where
  processed_at : ℤ
  expires_at : ℤ
deriving DecidableEq

/-- One row of the `pending_replies` table. -/
structure PendingRow where
  postId : String
  platform : SocialPlatform
  replyText : String
  originalPostUrl : String
  createdAt : ℤ
  expiresAt : ℤ
deriving DecidableEq

/-- One row of the `daily_counts` table (the key is modelled separately). -/
structure DailyRow where
  count : ℤ
  expiresAt : ℤ
deriving DecidableEq

/-- The four tables, each as a map from primary key to optional row. The
`daily_counts` key `platform:YYYY-MM-DD` is modelled as the pair (platform
string, day string). -/
structure Db where
  rateLimits : SocialPlatform → Option RateRow
  processedPosts : String → Option ProcessedRow
  pendingReplies : String → Option PendingRow
  dailyCounts : String × String → Option DailyRow

def emptyDb : Db :=
  ⟨fun _ => none, fun _ => none, fun _ => none, fun _ => none⟩

/-- `PendingReply` from `src/lib/types.ts` (the in-memory shape passed to and
returned from the store). -/
structure PendingReply where
  postId : String
  platform : SocialPlatform
  replyText : String
  originalPostUrl : String
  createdAt : ℤ
deriving DecidableEq

/-! ## `src/services/rate-limiter.ts` -/

/-- `canMakeRequest(platform)`. -/
def canMakeRequest (db : Db) (platform : SocialPlatform) (now : ℤ) : Bool :=
  let limits := PLATFORM_RATE_LIMITS platform
  match db.rateLimits platform with
  | none => true
  | some row =>
      if row.expires_at < now then true
      else if now - row.last_request_at > limits.windowSeconds * 1000 then true
      else row.request_count < limits.requestsPerWindow

/-- `recordRequest(platform)`. -/
def recordRequest (db : Db) (platform : SocialPlatform) (now : ℤ) : Db :=
  let limits := PLATFORM_RATE_LIMITS platform
  let expiresAt := now + limits.windowSeconds * 1000
  let fresh : RateRow := ⟨now, 1, expiresAt⟩
  let newRow : RateRow :=
    match db.rateLimits platform with
    | none => fresh
    | some row =>
        if row.expires_at < now ∨
            now - row.last_request_at > limits.windowSeconds * 1000 then fresh
        else { row with request_count := row.request_count + 1 }
  { db with rateLimits := fun q =>
      if q = platform then some newRow else db.rateLimits q }

/-- `isProcessed(postId)`. -/
def isProcessed (db : Db) (postId : String) (now : ℤ) : Bool :=
  match db.processedPosts postId with
  | none => false
  | some row => row.expires_at > now

/-- `markProcessed(postId, ttlDays = 7)`. -/
def markProcessed (db : Db) (postId : String) (now : ℤ)
    (ttlDays : ℤ := 7) : Db :=
  let expiresAt := now + ttlDays * 24 * 60 * 60 * 1000
  { db with processedPosts := fun k =>
      if k = postId then some ⟨now, expiresAt⟩ else db.processedPosts k }

/-- `storePendingReply(reply)`: upsert keyed by `postId`, 24-hour TTL. -/
def storePendingReply (db : Db) (reply : PendingReply) (now : ℤ) : Db :=
  let expiresAt := now + 24 * 60 * 60 * 1000
  let row : PendingRow :=
    ⟨reply.postId, reply.platform, reply.replyText, reply.originalPostUrl,
      reply.createdAt, expiresAt⟩
  { db with pendingReplies := fun k =>
      if k = reply.postId then some row else db.pendingReplies k }

/-- `getPendingReply(postId)`: `null` when there is no row or its
`expires_at` is not in the future. -/
def getPendingReply (db : Db) (postId : String) (now : ℤ) :
    Option PendingReply :=
  match db.pendingReplies postId with
  | none => none
  | some row =>
      if row.expiresAt > now then
        some ⟨row.postId, row.platform, row.replyText, row.originalPostUrl,
          row.createdAt⟩
      else none

/-- `deletePendingReply(postId)`. -/
def deletePendingReply (db : Db) (postId : String) : Db :=
  { db with pendingReplies := fun k =>
      if k = postId then none else db.pendingReplies k }

/-- `getDailyPostCount(platform)`; `platform` is the raw platform string and
`today` the UTC day string, together forming the key `platform:today`. -/
def getDailyPostCount (db : Db) (platform : String) (now : ℤ)
    (today : String) : ℤ :=
  match db.dailyCounts (platform, today) with
  | none => 0
  | some row => if row.expiresAt > now then row.count else 0

/-- `incrementDailyPostCount(platform)`: read-increment-upsert with a
48-hour row TTL; returns the new count. -/
def incrementDailyPostCount (db : Db) (platform : String) (now : ℤ)
    (today : String) : Db × ℤ :=
  let newCount := getDailyPostCount db platform now today + 1
  let expiresAt := now + 48 * 60 * 60 * 1000
  ({ db with dailyCounts := fun k =>
      if k = (platform, today) then some ⟨newCount, expiresAt⟩
      else db.dailyCounts k }, newCount)

/-- `canPostToday(platform, maxPerDay = 3)`. -/
def canPostToday (db : Db) (platform : String) (maxPerDay : ℤ) (now : ℤ)
    (today : String) : Bool :=
  getDailyPostCount db platform now today < maxPerDay

/-! ## Webhook handlers (`handleTelegramWebhook`, `handleApprove`,
`handleDecline`, `handleMarkDone`) and `decodeCallbackData` -/

/-- The decoded callback payload (`TelegramCallbackData`); the platform
field is an unchecked cast in the source, so it stays a raw string here. -/
structure TelegramCallbackData where
  action : String
  postId : String
  platform : String
deriving DecidableEq

/-- `decodeCallbackData` (`src/services/telegram.ts`):
`action:postId:platform` where the postId may itself contain colons. -/
def decodeCallbackData (dat : String) : Option TelegramCallbackData :=
  let parts := strSplit dat ':'
  if parts.length < 3 then none
  else
    match parts with
    | [] => none
    | action :: rest =>
        let platform := (rest.getLast?).getD ""
        let postId := joinSep ":" rest.dropLast
        if action ∈ ["approve", "approve_crosspost", "decline", "mark_done"]
        then some ⟨action, postId, platform⟩
        else none

/-- The operator-visible status written by `updateMessageStatus`. -/
inductive MsgStatus
  | posted
  | declined
  | done
  | failed
  | manual
deriving DecidableEq

/-- Result shape of the platform posting collaborators
(`postRedditReply` / `postTwitterReply`). -/
structure PostOutcome where
  success : Bool
  error : Option String
  url : Option String
deriving DecidableEq

/-- `handleApprove` (webhook handler). The posting collaborator is passed in
as `postCollab`; Telegram message updates and cross-posting are external
side channels with no effect on the store, so only the resulting
`MsgStatus` is kept. -/
def handleApprove (postCollab : SocialPlatform → PostOutcome) (db : Db)
    (pending : PendingReply) (crossPost : Bool) (now : ℤ) (today : String) :
    Db × MsgStatus :=
  let result : PostOutcome :=
    match pending.platform with
    | .reddit => postCollab .reddit
    | .twitter => postCollab .twitter
    | .instagram => ⟨false, some "Instagram requires manual posting", none⟩
  if result.success = false then
    match result.url with
    | some _ => (db, .manual)
    | none => (db, .failed)
  else
    let db1 :=
      (incrementDailyPostCount db (platformName pending.platform) now
        today).1
    let db2 := deletePendingReply db1 pending.postId
    (db2, .posted)

/-- `handleDecline`. -/
def handleDecline (db : Db) (postId : String) : Db × MsgStatus :=
  (deletePendingReply db postId, .declined)

/-- `handleMarkDone`: extracts the platform string from the postId
(`postId.split(':')[0]`) and increments that platform's daily count. -/
def handleMarkDone (db : Db) (postId : String) (now : ℤ) (today : String) :
    Db × MsgStatus :=
  let platform := (strSplit postId ':').headD ""
  let db1 := (incrementDailyPostCount db platform now today).1
  let db2 := deletePendingReply db1 postId
  (db2, .done)

/-- An incoming Telegram update: `callback_query` with optional `message`
and `data` fields (identifiers and usernames only feed logs and message
text). -/
structure CallbackQuery where
  id : String
  fromUsername : Option String
  fromFirstName : Option String
  messageId : Option ℤ
  dat : Option String
deriving DecidableEq

structure TelegramUpdate where
  update_id : ℤ
  callback_query : Option CallbackQuery
deriving DecidableEq

/-- `handleTelegramWebhook` (webhook entry point). Returns the resulting
store, the `ok` acknowledgement (the source always returns `ok: true`, also
on its catch-all path), and the operator-visible status update, if any. -/
def handleTelegramWebhook (postCollab : SocialPlatform → PostOutcome)
    (db : Db) (body : TelegramUpdate) (now : ℤ) (today : String) :
    Db × Bool × Option MsgStatus :=
  match body.callback_query with
  | none => (db, true, none)
  | some cb =>
      match cb.dat, cb.messageId with
      | some dat, some _ =>
          match decodeCallbackData dat with
          | none => (db, true, none)
          | some cbd =>
              match getPendingReply db cbd.postId now with
              | none => (db, true, some .failed)
              | some pending =>
                  if cbd.action = "approve" then
                    let (db', st) :=
                      handleApprove postCollab db pending false now today
                    (db', true, some st)
                  else if cbd.action = "approve_crosspost" then
                    let (db', st) :=
                      handleApprove postCollab db pending true now today
                    (db', true, some st)
                  else if cbd.action = "decline" then
                    let (db', st) := handleDecline db cbd.postId
                    (db', true, some st)
                  else if cbd.action = "mark_done" then
                    let (db', st) := handleMarkDone db cbd.postId now today
                    (db', true, some st)
                  else (db, true, none)
      | _, _ => (db, true, none)

/-! ## `scanPlatform` (scan orchestrator, per platform) -/

/-- `ScanResult` from `src/lib/types.ts`. -/
structure ScanResult where
  platform : SocialPlatform
  postsScanned : ℕ
  postsNew : ℕ
  postsRanked : ℕ
  repliesGenerated : ℕ
  approvalsSent : ℕ
  errors : List String
deriving DecidableEq

def emptyScanResult (platform : SocialPlatform) : ScanResult :=
  ⟨platform, 0, 0, 0, 0, 0, []⟩

/-- `scanPlatform` (scan handler). The scanner collaborator is passed in as
`scanner`; a thrown exception is `Except.error` with the message that the
catch block records. Returns the resulting store, the `ScanResult`, and the
candidate posts. -/
noncomputable def scanPlatform
    (scanner : SocialPlatform → Except String (List SocialPost)) (db : Db)
    (platform : SocialPlatform) (now : ℤ) (today : String) :
    Db × ScanResult × List SocialPost :=
  let result0 := emptyScanResult platform
  if canMakeRequest db platform now = false then (db, result0, [])
  else if canPostToday db (platformName platform) 3 now today = false then
    (db, result0, [])
  else if platform = .instagram then (db, result0, [])
  else
    match scanner platform with
    | .error e => (db, { result0 with errors := [e] }, [])
    | .ok posts =>
        let db1 := recordRequest db platform now
        let result1 := { result0 with postsScanned := posts.length }
        let newPosts :=
          posts.filter (fun post => isProcessed db1 post.id now = false)
        let result2 := { result1 with postsNew := newPosts.length }
        if newPosts.isEmpty then (db1, result2, [])
        else
          let rankedPosts := (rankPosts now newPosts 20).2
          let result3 := { result2 with postsRanked := rankedPosts.length }
          let postsForReply := filterForReply rankedPosts 40
          let db2 := rankedPosts.foldl
            (fun d post => markProcessed d post.id now 7) db1
          (db2, result3, postsForReply.take 3)

/-! ## Theorems -/

/-- The claim's reading of "the row's window has expired at the current
time": either of the two expiry tests of `canMakeRequest` holds (they
coincide on every row `recordRequest` writes, where
`expires_at = last_request_at + windowSeconds * 1000`). -/
def rateWindowExpired (platform : SocialPlatform) (row : RateRow)
    (now : ℤ) : Prop :=
  row.expires_at < now ∨
    now - row.last_request_at >
      (PLATFORM_RATE_LIMITS platform).windowSeconds * 1000

/-- Iterating `recordRequest` on one platform at a fixed time. -/
def recordRequestIter (platform : SocialPlatform) (t0 : ℤ) (k : ℕ)
    (db : Db) : Db :=
  (fun d => recordRequest d platform t0)^[k] db

/-- Iterating `incrementDailyPostCount` for one platform at a fixed clock. -/
def incrDailyIter (platform : String) (now : ℤ) (today : String) (k : ℕ)
    (db : Db) : Db :=
  (fun d => (incrementDailyPostCount d platform now today).1)^[k] db

/-- A posting collaborator that always succeeds. -/
def collabOk : SocialPlatform → PostOutcome := fun _ => ⟨true, none, none⟩

/-- A scanner collaborator that always throws. -/
def scannerThrows : SocialPlatform → Except String (List SocialPost) :=
  fun _ => .error "network error"

/-- A live pending twitter candidate used in concrete scenarios. -/
def pendingAbc : PendingReply :=
  ⟨"twitter:abc", .twitter, "Do one brick session a week.",
    "https://x.com/p/abc", 0⟩

/-- A store holding `pendingAbc` (unexpired at time 0) and an exhausted
twitter daily quota (count 3) for the day `2026-02-03`. -/
def dbQuotaFull : Db where
  rateLimits := fun _ => none
  processedPosts := fun _ => none
  pendingReplies := fun k =>
    if k = "twitter:abc" then
      some ⟨"twitter:abc", .twitter, "Do one brick session a week.",
        "https://x.com/p/abc", 0, 86400000⟩
    else none
  dailyCounts := fun k =>
    if k = ("twitter", "2026-02-03") then some ⟨3, 172800000⟩ else none

/-- A concrete already-ranked post whose text matches question patterns. -/
def questionPost : SocialPost :=
  ⟨"reddit:q1", .reddit, "q1", "https://reddit.com/r/triathlon/q1",
    "triFan", "how do I improve my swim?", none, 10, 0, 0, 50⟩

lemma recordRequestIter_twitter_row (t0 : ℤ) :
    ∀ k : ℕ, k ≠ 0 →
      (recordRequestIter .twitter t0 k emptyDb).rateLimits .twitter =
        some ⟨t0, (k : ℤ), t0 + 900 * 1000⟩ := by
  intro k
  induction k with
  | zero => intro h; exact absurd rfl h
  | succ n ih =>
      intro _
      rw [recordRequestIter, Function.iterate_succ_apply', ← recordRequestIter]
      by_cases hn : n = 0
      · subst hn
        simp [recordRequestIter, recordRequest, emptyDb, PLATFORM_RATE_LIMITS]
      · have hrow := ih hn
        have h1 : ¬ ((⟨t0, (n : ℤ), t0 + 900 * 1000⟩ : RateRow).expires_at
            < t0 ∨ t0 - (⟨t0, (n : ℤ), t0 + 900 * 1000⟩ : RateRow).last_request_at >
              (PLATFORM_RATE_LIMITS .twitter).windowSeconds * 1000) := by
          simp [PLATFORM_RATE_LIMITS]
        simp only [recordRequest, hrow, if_neg h1]
        simp [PLATFORM_RATE_LIMITS]

/-- C3: `canMakeRequest` is true exactly when there is no rate-window row,
or the row's window has expired at the current time, or its request count is
strictly below the platform's limit; and from an empty store, 15
`recordRequest('twitter')` calls within one window make
`canMakeRequest('twitter')` false, turning true again once the window has
expired. -/
theorem canMakeRequest_spec :
    (∀ (db : Db) (p : SocialPlatform) (now : ℤ),
      canMakeRequest db p now = true ↔
        db.rateLimits p = none ∨
          ∃ row, db.rateLimits p = some row ∧
            (rateWindowExpired p row now ∨
              row.request_count <
                (PLATFORM_RATE_LIMITS p).requestsPerWindow)) ∧
    (∀ t0 : ℤ,
      canMakeRequest (recordRequestIter .twitter t0 15 emptyDb) .twitter t0
          = false ∧
      ∀ now' : ℤ, t0 + 900 * 1000 < now' →
        canMakeRequest (recordRequestIter .twitter t0 15 emptyDb) .twitter
            now' = true) := by
  constructor
  · intro db p now
    rcases h : db.rateLimits p with _ | row
    · simp [canMakeRequest, h]
    · simp only [canMakeRequest, h]
      constructor
      · intro htrue
        refine Or.inr ⟨row, rfl, ?_⟩
        by_cases h1 : row.expires_at < now
        · exact Or.inl (Or.inl h1)
        by_cases h2 : now - row.last_request_at >
            (PLATFORM_RATE_LIMITS p).windowSeconds * 1000
        · exact Or.inl (Or.inr h2)
        · simp only [if_neg h1, if_neg h2, decide_eq_true_eq] at htrue
          exact Or.inr htrue
      · rintro (hnone | ⟨row', hrow', hcond⟩)
        · exact absurd hnone (by simp)
        · obtain rfl : row = row' := by injection hrow'
          rcases hcond with hcond | hcond
          · rw [rateWindowExpired] at hcond
            split_ifs with h1 h2
            · rfl
            · rfl
            · rcases hcond with hc | hc
              · exact absurd hc h1
              · exact absurd hc h2
          · split_ifs with h1 h2
            · rfl
            · rfl
            · simpa using hcond
  · intro t0
    have hrow := recordRequestIter_twitter_row t0 15 (by decide)
    constructor
    · simp [canMakeRequest, hrow, PLATFORM_RATE_LIMITS]
    · intro now' hnow
      simp [canMakeRequest, hrow, PLATFORM_RATE_LIMITS]
      omega

/-- Witness for `canMakeRequest_spec`: the 15-call scenario at `t0 = 0`,
read back at time 0 (still inside the window) and at `900001` (expired). -/
theorem canMakeRequest_spec_witness :
    canMakeRequest (recordRequestIter .twitter 0 15 emptyDb) .twitter 0
        = false ∧
      canMakeRequest (recordRequestIter .twitter 0 15 emptyDb) .twitter
          900001 = true :=
  ⟨(canMakeRequest_spec.2 0).1,
    (canMakeRequest_spec.2 0).2 900001 (by norm_num)⟩

lemma incrDailyIter_row (db : Db) (platform : String) (now : ℤ)
    (today : String) (hrow : db.dailyCounts (platform, today) = none) :
    ∀ k : ℕ,
      (incrDailyIter platform now today k db).dailyCounts (platform, today)
        = if k = 0 then none
          else some ⟨(k : ℤ), now + 48 * 60 * 60 * 1000⟩ := by
  intro k
  induction k with
  | zero => simpa [incrDailyIter] using hrow
  | succ n ih =>
      rw [incrDailyIter, Function.iterate_succ_apply', ← incrDailyIter]
      have hcount :
          getDailyPostCount (incrDailyIter platform now today n db) platform
            now today = (n : ℤ) := by
        by_cases hn : n = 0
        · subst hn
          simp [getDailyPostCount, ih]
        · simp [getDailyPostCount, ih, hn]
      simp only [incrementDailyPostCount, hcount]
      simp

lemma incrDailyIter_other (db : Db) (platform : String) (now : ℤ)
    (today : String) (key : String × String)
    (hk : key ≠ (platform, today)) :
    ∀ k : ℕ,
      (incrDailyIter platform now today k db).dailyCounts key =
        db.dailyCounts key := by
  intro k
  induction k with
  | zero => rfl
  | succ n ih =>
      rw [incrDailyIter, Function.iterate_succ_apply', ← incrDailyIter]
      simp [incrementDailyPostCount, hk, ih]

/-- C4: starting with no daily-count row for platform `p` on the current
UTC day and a clock fixed inside that day, `max` calls to
`incrementDailyPostCount(p)` make `canPostToday(p, max)` false, while
`canPostToday(q, max)` for every other platform `q` is unchanged. -/
theorem daily_quota_enforcement (db : Db) (p q : SocialPlatform)
    (maxPerDay : ℕ) (now : ℤ) (today : String)
    (hrow : db.dailyCounts (platformName p, today) = none) (hpq : q ≠ p) :
    canPostToday (incrDailyIter (platformName p) now today maxPerDay db)
        (platformName p) (maxPerDay : ℤ) now today = false ∧
    canPostToday (incrDailyIter (platformName p) now today maxPerDay db)
        (platformName q) (maxPerDay : ℤ) now today =
      canPostToday db (platformName q) (maxPerDay : ℤ) now today := by
  have hname : platformName q ≠ platformName p := by
    revert hpq; cases p <;> cases q <;> decide
  constructor
  · have hcnt :
        getDailyPostCount
            (incrDailyIter (platformName p) now today maxPerDay db)
            (platformName p) now today = (maxPerDay : ℤ) := by
      by_cases hm : maxPerDay = 0
      · subst hm
        simp [getDailyPostCount,
          incrDailyIter_row db (platformName p) now today hrow]
      · simp [getDailyPostCount,
          incrDailyIter_row db (platformName p) now today hrow, hm]
    simp [canPostToday, hcnt]
  · have hother := incrDailyIter_other db (platformName p) now today
      (platformName q, today) (by simp [hname]) maxPerDay
    simp only [canPostToday, getDailyPostCount, hother]

/-- Witness for `daily_quota_enforcement`: three increments for twitter on
one day exhaust a max of 3; reddit is unaffected. -/
theorem daily_quota_enforcement_witness :
    canPostToday (incrDailyIter "twitter" 0 "2026-02-03" 3 emptyDb)
        "twitter" ((3 : ℕ) : ℤ) 0 "2026-02-03" = false ∧
    canPostToday (incrDailyIter "twitter" 0 "2026-02-03" 3 emptyDb)
        "reddit" ((3 : ℕ) : ℤ) 0 "2026-02-03" =
      canPostToday emptyDb "reddit" ((3 : ℕ) : ℤ) 0 "2026-02-03" :=
  daily_quota_enforcement emptyDb .twitter .reddit 3 0 "2026-02-03" rfl
    (by decide)

/-- C8: a pending candidate past its 24-hour TTL behaves as missing — after
`storePendingReply` at time `t`, `getPendingReply` at any strictly later
time than `t + 24h` returns `null`, with no decision event involved. -/
theorem pending_reply_ttl (db : Db) (reply : PendingReply) (t now : ℤ)
    (h : t + 24 * 60 * 60 * 1000 < now) :
    getPendingReply (storePendingReply db reply t) reply.postId now
      = none := by
  have hlook :
      (storePendingReply db reply t).pendingReplies reply.postId =
        some ⟨reply.postId, reply.platform, reply.replyText,
          reply.originalPostUrl, reply.createdAt,
          t + 24 * 60 * 60 * 1000⟩ := by
    simp [storePendingReply]
  simp only [getPendingReply, hlook]
  rw [if_neg]
  omega

/-- Witness for `pending_reply_ttl` at concrete inputs. -/
theorem pending_reply_ttl_witness :
    getPendingReply
        (storePendingReply emptyDb
          ⟨"twitter:abc", .twitter, "Build your base first.",
            "https://x.com/p/abc", 0⟩ 0)
        "twitter:abc" 86400001 = none :=
  pending_reply_ttl emptyDb
    ⟨"twitter:abc", .twitter, "Build your base first.",
      "https://x.com/p/abc", 0⟩ 0 86400001 (by norm_num)

end Triplanai

namespace Triplanai

/-- C9: a decision event whose postId has no live (non-expired, non-deleted)
pending candidate is an acknowledged no-op: the handler returns `ok: true`,
leaves the store unchanged (no transition, no deletion, no daily-count
increment), and surfaces the "expired or already processed" status. -/
theorem decision_unknown_candidate_noop
    (postCollab : SocialPlatform → PostOutcome) (db : Db)
    (uid mid : ℤ) (cbId : String) (uname fname : Option String)
    (dat : String) (cbd : TelegramCallbackData) (now : ℤ) (today : String)
    (hdec : decodeCallbackData dat = some cbd)
    (hnone : getPendingReply db cbd.postId now = none) :
    handleTelegramWebhook postCollab db
        ⟨uid, some ⟨cbId, uname, fname, some mid, some dat⟩⟩ now today =
      (db, true, some .failed) := by
  simp [handleTelegramWebhook, hdec, hnone]

/-- Witness for `decision_unknown_candidate_noop`: a redelivered decline for
a candidate that no longer exists, against the empty store. -/
theorem decision_unknown_candidate_noop_witness :
    handleTelegramWebhook collabOk emptyDb
        ⟨1, some ⟨"cb1", some "operator", none, some 10,
          some "decline:twitter:abc:twitter"⟩⟩ 5 "2026-02-03" =
      (emptyDb, true, some .failed) :=
  decision_unknown_candidate_noop collabOk emptyDb 1 10 "cb1"
    (some "operator") none "decline:twitter:abc:twitter"
    ⟨"decline", "twitter:abc", "twitter"⟩ 5 "2026-02-03" (by decide) rfl

end Triplanai

namespace Triplanai

/-- C1 counterexample: with the twitter daily quota already exhausted
(`canPostToday` is false) and a live pending candidate, an approve decision
is not refused and `canPostToday` is not consulted: `handleApprove` posts,
reports `posted` (not a quota-blocked status), deletes the candidate, and
increments the daily count to 4. -/
theorem approve_ignores_quota_cex :
    canPostToday dbQuotaFull "twitter" 3 0 "2026-02-03" = false ∧
    getPendingReply dbQuotaFull "twitter:abc" 0 = some pendingAbc ∧
    (handleApprove collabOk dbQuotaFull pendingAbc false 0 "2026-02-03").2
      = .posted ∧
    (handleApprove collabOk dbQuotaFull pendingAbc false 0
        "2026-02-03").1.pendingReplies "twitter:abc" = none ∧
    getDailyPostCount
        (handleApprove collabOk dbQuotaFull pendingAbc false 0
          "2026-02-03").1 "twitter" 0 "2026-02-03" = 4 := by
  refine ⟨by decide, by decide, by decide, by decide, by decide⟩

/-- C1 amended: the only `canPostToday` consult is at scan time —
`scanPlatform` skips a platform whose daily quota is exhausted — while
`handleApprove` applies the approve transition without consulting
`canPostToday`: whenever the posting collaborator succeeds, regardless of
the quota state, the candidate is deleted, the daily count is incremented,
and the operator sees `posted`. -/
theorem approve_without_quota_check :
    (∀ (collab : SocialPlatform → PostOutcome) (db : Db)
        (pending : PendingReply) (crossPost : Bool) (now : ℤ)
        (today : String),
      (collab pending.platform).success = true →
      pending.platform ≠ .instagram →
      (handleApprove collab db pending crossPost now today).2 = .posted ∧
      (handleApprove collab db pending crossPost now
          today).1.pendingReplies pending.postId = none ∧
      getDailyPostCount
          (handleApprove collab db pending crossPost now today).1
          (platformName pending.platform) now today =
        getDailyPostCount db (platformName pending.platform) now today
          + 1) ∧
    (∀ (scanner : SocialPlatform → Except String (List SocialPost))
        (db : Db) (p : SocialPlatform) (now : ℤ) (today : String),
      canMakeRequest db p now = true →
      canPostToday db (platformName p) 3 now today = false →
      scanPlatform scanner db p now today = (db, emptyScanResult p, [])) := by
  constructor
  · intro collab db pending crossPost now today hsucc hplat
    obtain ⟨pid, plat, rt, url, ca⟩ := pending
    cases plat with
    | instagram => exact absurd rfl hplat
    | reddit =>
        simp only [handleApprove] at *
        simp only [hsucc]
        simp [deletePendingReply, incrementDailyPostCount,
          getDailyPostCount]
    | twitter =>
        simp only [handleApprove] at *
        simp only [hsucc]
        simp [deletePendingReply, incrementDailyPostCount,
          getDailyPostCount]
  · intro scanner db p now today hreq hquota
    simp [scanPlatform, hreq, hquota]

/-- Witness for `approve_without_quota_check` at the concrete quota-full
store: the approve still posts, and the scan-time gate skips the platform. -/
theorem approve_without_quota_check_witness :
    ((handleApprove collabOk dbQuotaFull pendingAbc false 0
        "2026-02-03").2 = .posted ∧
      (handleApprove collabOk dbQuotaFull pendingAbc false 0
          "2026-02-03").1.pendingReplies pendingAbc.postId = none ∧
      getDailyPostCount
          (handleApprove collabOk dbQuotaFull pendingAbc false 0
            "2026-02-03").1 (platformName pendingAbc.platform) 0
          "2026-02-03" =
        getDailyPostCount dbQuotaFull (platformName pendingAbc.platform) 0
          "2026-02-03" + 1) ∧
    scanPlatform scannerThrows dbQuotaFull .twitter 0 "2026-02-03" =
      (dbQuotaFull, emptyScanResult .twitter, []) :=
  ⟨approve_without_quota_check.1 collabOk dbQuotaFull pendingAbc false 0
      "2026-02-03" (by decide) (by decide),
    approve_without_quota_check.2 scannerThrows dbQuotaFull .twitter 0
      "2026-02-03" (by decide) (by decide)⟩

/-- C2 counterexample: from the empty store, a tick in which the twitter
scanner throws leaves the rate window for twitter empty — no request is
recorded against the rate gate — whereas one recorded request would have
produced a row with count 1. -/
theorem scanner_error_skips_record_cex :
    (scanPlatform scannerThrows emptyDb .twitter 0
        "2026-02-03").1.rateLimits .twitter = none ∧
    (recordRequest emptyDb .twitter 0).rateLimits .twitter =
      some ⟨0, 1, 900000⟩ := by
  refine ⟨by decide, by decide⟩

/-- C2 amended: the request is recorded only when the scanner call returns
normally. When the scanner for a platform throws, the store — in particular
that platform's rate window — is unchanged; with the gates open and a
non-instagram platform, the thrown message is recorded in the tick result's
errors instead. -/
theorem record_request_only_on_success :
    (∀ (scanner : SocialPlatform → Except String (List SocialPost))
        (db : Db) (p : SocialPlatform) (now : ℤ) (today : String)
        (e : String), scanner p = .error e →
      (scanPlatform scanner db p now today).1 = db) ∧
    (∀ (scanner : SocialPlatform → Except String (List SocialPost))
        (db : Db) (p : SocialPlatform) (now : ℤ) (today : String)
        (e : String),
      canMakeRequest db p now = true →
      canPostToday db (platformName p) 3 now today = true →
      p ≠ .instagram →
      scanner p = .error e →
      scanPlatform scanner db p now today =
        (db, { emptyScanResult p with errors := [e] }, [])) := by
  constructor
  · intro scanner db p now today e he
    by_cases h1 : canMakeRequest db p now = false
    · simp [scanPlatform, h1]
    · by_cases h2 : canPostToday db (platformName p) 3 now today = false
      · simp [scanPlatform, h1, h2]
      · by_cases h3 : p = .instagram
        · simp [scanPlatform, h1, h2, h3]
        · simp [scanPlatform, h1, h2, h3, he]
  · intro scanner db p now today e h1 h2 h3 he
    simp [scanPlatform, h1, h2, h3, he]

/-- Witness for `record_request_only_on_success`: the throwing scanner
against the empty store at twitter. -/
theorem record_request_only_on_success_witness :
    (scanPlatform scannerThrows emptyDb .twitter 5 "2026-02-03").1 =
        emptyDb ∧
      scanPlatform scannerThrows emptyDb .twitter 5 "2026-02-03" =
        (emptyDb,
          { emptyScanResult .twitter with errors := ["network error"] },
          []) :=
  ⟨record_request_only_on_success.1 scannerThrows emptyDb .twitter 5
      "2026-02-03" "network error" rfl,
    record_request_only_on_success.2 scannerThrows emptyDb .twitter 5
      "2026-02-03" "network error" (by decide) (by decide) (by decide) rfl⟩

end Triplanai

namespace Triplanai

lemma mem_filterForReply (posts : List SocialPost) (t : ℤ)
    (p : SocialPost) :
    p ∈ filterForReply posts t ↔
      p ∈ posts ∧ t ≤ p.relevanceScore ∧ isQuestionText p = true := by
  simp only [filterForReply, List.mem_filter]
  constructor
  · rintro ⟨hm, hpred⟩
    by_cases hlt : p.relevanceScore < t
    · rw [if_pos hlt] at hpred
      exact absurd hpred (by simp)
    · rw [if_neg hlt] at hpred
      exact ⟨hm, not_lt.mp hlt, hpred⟩
  · rintro ⟨hm, hge, hq⟩
    refine ⟨hm, ?_⟩
    rw [if_neg (not_lt.mpr hge)]
    exact hq

/-- C7: `filterForReply` keeps a post exactly when its relevance score
reaches the threshold and its title-plus-content text matches at least one
question/help-seeking pattern; meeting the threshold alone is not enough. -/
theorem filterForReply_keeps_iff (posts : List SocialPost)
    (minRelevance : ℤ) (p : SocialPost) :
    p ∈ filterForReply posts minRelevance ↔
      p ∈ posts ∧ minRelevance ≤ p.relevanceScore ∧
        isQuestionText p = true :=
  mem_filterForReply posts minRelevance p

/-- C6: `filterForReply` is monotone in its threshold — whatever survives
the higher threshold also survives the lower one. -/
theorem filterForReply_threshold_monotone (posts : List SocialPost)
    (t1 t2 : ℤ) (h : t1 ≤ t2) (p : SocialPost)
    (hp : p ∈ filterForReply posts t2) : p ∈ filterForReply posts t1 := by
  rw [mem_filterForReply] at hp ⊢
  exact ⟨hp.1, le_trans h hp.2.1, hp.2.2⟩

/-- Witness for `filterForReply_threshold_monotone`: a post kept at
threshold 45 is kept at threshold 40. -/
theorem filterForReply_threshold_monotone_witness :
    questionPost ∈ filterForReply [questionPost] 40 :=
  filterForReply_threshold_monotone [questionPost] 40 45 (by norm_num)
    questionPost (by decide)

end Triplanai

namespace Triplanai

lemma keywordFormula_bounds (n : ℕ) :
    0 ≤ min 100 (min (n : ℝ) 5 / 5 * 100 * (1 + min ((n : ℝ) * 0.05) 0.25))
      ∧ min 100 (min (n : ℝ) 5 / 5 * 100 * (1 + min ((n : ℝ) * 0.05) 0.25))
        ≤ 100 := by
  have h1 : (0 : ℝ) ≤ min (n : ℝ) 5 := le_min (Nat.cast_nonneg n) (by norm_num)
  have h3 : (0 : ℝ) ≤ min ((n : ℝ) * 0.05) 0.25 :=
    le_min (by positivity) (by norm_num)
  exact ⟨le_min (by norm_num) (by nlinarith), min_le_left _ _⟩

lemma calculateKeywordScore_bounds (post : SocialPost) :
    0 ≤ calculateKeywordScore post ∧ calculateKeywordScore post ≤ 100 :=
  keywordFormula_bounds
    ((TRIATHLON_KEYWORDS.filter
      (fun kw => strIncludes (strLower (postText post)) (strLower kw))).length)

lemma questionFormula_bounds (n : ℕ) :
    0 ≤ min 100 (min (n : ℝ) 3 / 3 * 100) ∧
      min 100 (min (n : ℝ) 3 / 3 * 100) ≤ 100 := by
  have h1 : (0 : ℝ) ≤ min (n : ℝ) 3 := le_min (Nat.cast_nonneg n) (by norm_num)
  exact ⟨le_min (by norm_num) (by nlinarith), min_le_left _ _⟩

lemma calculateQuestionScore_bounds (post : SocialPost) :
    0 ≤ calculateQuestionScore post ∧ calculateQuestionScore post ≤ 100 :=
  questionFormula_bounds (questionMatches post)

lemma calculateEngagementScore_bounds (post : SocialPost)
    (maxEngagement : ℕ) (h : post.engagementScore ≤ maxEngagement) :
    0 ≤ calculateEngagementScore post maxEngagement ∧
      calculateEngagementScore post maxEngagement ≤ 100 := by
  simp only [calculateEngagementScore]
  by_cases hm : maxEngagement = 0
  · rw [if_pos hm]
    norm_num
  · rw [if_neg hm]
    have hm1 : 1 ≤ maxEngagement := Nat.one_le_iff_ne_zero.mpr hm
    have hb : (1 : ℝ) < 10 := by norm_num
    have hlogmax : 0 < Real.logb 10 ((maxEngagement : ℝ) + 1) := by
      apply Real.logb_pos hb
      have : (1 : ℝ) ≤ (maxEngagement : ℝ) := by exact_mod_cast hm1
      linarith
    have hlogscore : 0 ≤ Real.logb 10 ((post.engagementScore : ℝ) + 1) := by
      apply Real.logb_nonneg hb
      have : (0 : ℝ) ≤ (post.engagementScore : ℝ) := Nat.cast_nonneg _
      linarith
    have hle : Real.logb 10 ((post.engagementScore : ℝ) + 1) ≤
        Real.logb 10 ((maxEngagement : ℝ) + 1) := by
      apply Real.logb_le_logb_of_le hb (by positivity)
      have : (post.engagementScore : ℝ) ≤ (maxEngagement : ℝ) := by
        exact_mod_cast h
      linarith
    constructor
    · exact mul_nonneg (div_nonneg hlogscore hlogmax.le) (by norm_num)
    · have hdiv : Real.logb 10 ((post.engagementScore : ℝ) + 1) /
          Real.logb 10 ((maxEngagement : ℝ) + 1) ≤ 1 :=
        div_le_one_of_le₀ hle hlogmax.le
      nlinarith

lemma calculateRecencyScore_bounds (now : ℤ) (post : SocialPost) :
    0 ≤ calculateRecencyScore now post ∧
      calculateRecencyScore now post ≤ 100 := by
  have hmaxge : ∀ x : ℝ, (0 : ℝ) ≤ max 10 (100 * Real.exp x) := by
    intro x
    have := le_max_left (10 : ℝ) (100 * Real.exp x)
    linarith
  have hmaxle : ∀ x : ℝ, x ≤ 0 → max (10 : ℝ) (100 * Real.exp x) ≤ 100 := by
    intro x hx
    apply max_le (by norm_num)
    have := Real.exp_le_one_iff.mpr hx
    nlinarith
  simp only [calculateRecencyScore]
  split_ifs with hplat h1 h2 h3 h4
  · exact ⟨by norm_num, by norm_num⟩
  · exact ⟨by norm_num, by norm_num⟩
  · refine ⟨hmaxge _, hmaxle _ ?_⟩
    push_neg at h1
    have h30 : (0 : ℝ) ≤
        ((now - post.createdAt : ℤ) : ℝ) / (1000 * 60) := by linarith
    linarith
  · exact ⟨by norm_num, by norm_num⟩
  · exact ⟨by norm_num, by norm_num⟩
  · refine ⟨hmaxge _, hmaxle _ ?_⟩
    push_neg at h3
    have h1h : (0 : ℝ) ≤
        ((now - post.createdAt : ℤ) : ℝ) / (1000 * 60 * 60) := by linarith
    linarith

lemma jsRound_bounds (x : ℝ) (h0 : 0 ≤ x) (h1 : x ≤ 100) :
    0 ≤ jsRound x ∧ jsRound x ≤ 100 := by
  unfold jsRound
  constructor
  · apply Int.le_floor.mpr
    push_cast
    linarith
  · have hlt : (⌊x + 1 / 2⌋ : ℤ) < 101 := by
      apply Int.floor_lt.mpr
      push_cast
      linarith
    omega

/-- C5: for a post with non-negative integer engagement, ranked against the
batch maximum engagement, all four sub-scores and the rounded combined
relevance score lie in `[0, 100]`. -/
theorem score_bounds (now : ℤ) (post : SocialPost) (maxEngagement : ℕ)
    (h : post.engagementScore ≤ maxEngagement) :
    (0 ≤ calculateKeywordScore post ∧ calculateKeywordScore post ≤ 100) ∧
    (0 ≤ calculateEngagementScore post maxEngagement ∧
      calculateEngagementScore post maxEngagement ≤ 100) ∧
    (0 ≤ calculateRecencyScore now post ∧
      calculateRecencyScore now post ≤ 100) ∧
    (0 ≤ calculateQuestionScore post ∧
      calculateQuestionScore post ≤ 100) ∧
    (0 ≤ calculateRelevanceScore now post maxEngagement ∧
      calculateRelevanceScore now post maxEngagement ≤ 100) := by
  obtain ⟨hk0, hk1⟩ := calculateKeywordScore_bounds post
  obtain ⟨he0, he1⟩ := calculateEngagementScore_bounds post maxEngagement h
  obtain ⟨hr0, hr1⟩ := calculateRecencyScore_bounds now post
  obtain ⟨hq0, hq1⟩ := calculateQuestionScore_bounds post
  refine ⟨⟨hk0, hk1⟩, ⟨he0, he1⟩, ⟨hr0, hr1⟩, ⟨hq0, hq1⟩, ?_⟩
  simp only [calculateRelevanceScore]
  apply jsRound_bounds
  · cases hp : post.platform <;> simp only [RANKING_WEIGHTS] <;> linarith
  · cases hp : post.platform <;> simp only [RANKING_WEIGHTS] <;> linarith

/-- Witness for `score_bounds` at a concrete post and batch maximum. -/
theorem score_bounds_witness :
    0 ≤ calculateRelevanceScore 0 questionPost 10 ∧
      calculateRelevanceScore 0 questionPost 10 ≤ 100 :=
  (score_bounds 0 questionPost 10 (by decide)).2.2.2.2

end Triplanai

namespace Triplanai

lemma insertDesc_perm (p : SocialPost) (l : List SocialPost) :
    List.Perm (insertDesc p l) (p :: l) := by
  induction l with
  | nil => exact List.Perm.refl _
  | cons q qs ih =>
      rw [insertDesc]
      split_ifs
      · exact List.Perm.refl _
      · exact (List.Perm.cons q ih).trans (List.Perm.swap p q qs)

lemma insertDesc_sorted (p : SocialPost) (l : List SocialPost)
    (hl : List.Pairwise
      (fun a b => b.relevanceScore ≤ a.relevanceScore) l) :
    List.Pairwise (fun a b => b.relevanceScore ≤ a.relevanceScore)
      (insertDesc p l) := by
  induction l with
  | nil => simp [insertDesc]
  | cons q qs ih =>
      rw [insertDesc]
      split_ifs with hq
      · rw [List.pairwise_cons]
        refine ⟨?_, hl⟩
        intro b hb
        rcases List.mem_cons.mp hb with rfl | hb
        · exact hq
        · exact le_trans ((List.pairwise_cons.mp hl).1 b hb) hq
      · rw [List.pairwise_cons] at hl ⊢
        obtain ⟨hqall, hqs⟩ := hl
        refine ⟨?_, ih hqs⟩
        intro b hb
        have hmem : b = p ∨ b ∈ qs := by
          simpa using (insertDesc_perm p qs).mem_iff.mp hb
        rcases hmem with rfl | hb'
        · exact (not_le.mp hq).le
        · exact hqall b hb'

lemma sortByScoreDesc_perm (l : List SocialPost) :
    List.Perm (sortByScoreDesc l) l := by
  induction l with
  | nil => exact List.Perm.refl _
  | cons p ps ih =>
      rw [sortByScoreDesc]
      exact (insertDesc_perm p _).trans (List.Perm.cons p ih)

lemma sortByScoreDesc_sorted (l : List SocialPost) :
    List.Pairwise (fun a b => b.relevanceScore ≤ a.relevanceScore)
      (sortByScoreDesc l) := by
  induction l with
  | nil => simp [sortByScoreDesc]
  | cons p ps ih =>
      rw [sortByScoreDesc]
      exact insertDesc_sorted p _ ih

lemma calculateRelevanceScore_set_rel (now : ℤ) (p : SocialPost) (x : ℤ)
    (m : ℕ) :
    calculateRelevanceScore now { p with relevanceScore := x } m =
      calculateRelevanceScore now p m := by
  cases p
  rfl

/-- C10: modelling the in-place mutation as explicit state passing,
`rankPosts` rewrites the caller's whole array — every element (also beyond
the returned prefix) carries the freshly computed relevance score — sorts it
in descending score order, and the returned value is the `limit`-prefix of
that same reordered array. -/
theorem rankPosts_effects (now : ℤ) (posts : List SocialPost) (limit : ℕ)
    (h : posts ≠ []) :
    List.Perm (rankPosts now posts limit).1 (scoreAll now posts) ∧
    (∀ p ∈ (rankPosts now posts limit).1,
      p.relevanceScore =
        calculateRelevanceScore now p (maxEngagementOf posts)) ∧
    List.Pairwise (fun a b => b.relevanceScore ≤ a.relevanceScore)
      (rankPosts now posts limit).1 ∧
    (rankPosts now posts limit).2 =
      ((rankPosts now posts limit).1).take limit := by
  have hne : posts.isEmpty = false := by
    cases posts
    · exact absurd rfl h
    · rfl
  simp only [rankPosts, hne]
  simp only [Bool.false_eq_true, if_false]
  refine ⟨sortByScoreDesc_perm _, ?_, sortByScoreDesc_sorted _, trivial⟩
  intro p hp
  have hmem : p ∈ scoreAll now posts :=
    (sortByScoreDesc_perm _).mem_iff.mp hp
  simp only [scoreAll, List.mem_map] at hmem
  obtain ⟨orig, _, rfl⟩ := hmem
  simp only [calculateRelevanceScore_set_rel]

/-- Witness for `rankPosts_effects` on a one-element batch. -/
theorem rankPosts_effects_witness :
    List.Perm (rankPosts 0 [questionPost] 2).1 (scoreAll 0 [questionPost]) ∧
    (∀ p ∈ (rankPosts 0 [questionPost] 2).1,
      p.relevanceScore =
        calculateRelevanceScore 0 p (maxEngagementOf [questionPost])) ∧
    List.Pairwise (fun a b => b.relevanceScore ≤ a.relevanceScore)
      (rankPosts 0 [questionPost] 2).1 ∧
    (rankPosts 0 [questionPost] 2).2 =
      ((rankPosts 0 [questionPost] 2).1).take 2 :=
  rankPosts_effects 0 [questionPost] 2 (by simp)

end Triplanai
